import Mathlib

set_option maxHeartbeats 1000000

/-! Shallow embedding of the darts repository's explainability module
(`src/darts/explainability/shap_explainer.py`: `ShapExplainer` and
`RegressionShapExplainers`) and of the save/load round-trip exercised by
`src/darts/tests/models/forecasting/test_local_forecasting_models.py`.

Machine values are rationals; time indexes are contiguous integer ranges
(a darts `TimeSeries` has a regular, contiguous time index).  Python
exceptions are modelled with `Except PyErr`. -/

/-- Python exception outcomes reachable in the embedded code paths. -/
inductive PyErr where
  | valueError (msg : String)
  | attributeError
  | keyError
  | typeError
  | assertionError
deriving DecidableEq, Repr

/-- A darts `TimeSeries`: a contiguous integer time index starting at `start`,
one row of values per time step, one value per component. -/
structure TimeSeries where
  start : ℤ
  comps : List String
  rows : List (List ℚ)
deriving DecidableEq, Repr

/-- `series.time_index` as a list of integer timestamps. -/
def TimeSeries.timeIndex (s : TimeSeries) : List ℤ :=
  (List.range s.rows.length).map (fun i => s.start + i)

/-- Value of component `j` at timestamp `t` (`none` when `t` is outside the
series or `j` is not a component position). -/
def TimeSeries.atTime (s : TimeSeries) (t : ℤ) (j : ℕ) : Option ℚ :=
  if 0 ≤ t - s.start then (s.rows[(t - s.start).toNat]?).bind (fun r => r[j]?) else none

/-- A pandas DataFrame: a list of integer timestamps, positional column labels,
and a (time, column position) cell lookup; `none` models a missing row or NaN. -/
structure DFrame where
  index : List ℤ
  cols : List String
  val : ℤ → ℕ → Option ℚ

def emptyDF : DFrame := ⟨[], [], fun _ _ => none⟩

instance : Inhabited DFrame := ⟨emptyDF⟩

/-- Insert into a sorted list of integers (used to model the sorted union of
indexes that `pd.concat(axis=1)` produces on monotonic indexes). -/
def insertSorted (x : ℤ) : List ℤ → List ℤ
  | [] => [x]
  | y :: ys => if x ≤ y then x :: y :: ys else y :: insertSorted x ys

def sortInts (l : List ℤ) : List ℤ := l.foldr insertSorted []

/-- Sorted union of several indexes, as produced by `pd.concat(..., axis=1)`
with outer join on monotonic integer indexes. -/
def sortedUnion (ls : List (List ℤ)) : List ℤ := sortInts ls.flatten.dedup

theorem mem_insertSorted (x a : ℤ) (l : List ℤ) :
    a ∈ insertSorted x l ↔ a = x ∨ a ∈ l := by
  induction l with
  | nil => simp [insertSorted]
  | cons y ys ih =>
    by_cases h : x ≤ y
    · simp [insertSorted, h]
    · simp [insertSorted, h, ih]
      tauto

theorem mem_sortInts (a : ℤ) (l : List ℤ) : a ∈ sortInts l ↔ a ∈ l := by
  induction l with
  | nil => simp [sortInts]
  | cons y ys ih => simp [sortInts, mem_insertSorted] at ih ⊢; tauto

theorem mem_sortedUnion (a : ℤ) (ls : List (List ℤ)) :
    a ∈ sortedUnion ls ↔ ∃ l ∈ ls, a ∈ l := by
  simp [sortedUnion, mem_sortInts, List.mem_flatten]

/-- `df.shift(-lag)` followed by the column rename
`{c: c + suffix + str(lag) for c in df.columns}`, applied to the dataframe of a
series: the index is unchanged, and the cell at time `t` holds the series value
at time `t + lag` (NaN when that time falls outside the series). -/
def laggedFrame (s : TimeSeries) (lag : ℤ) (suffix : String) : DFrame where
  index := s.timeIndex
  cols := s.comps.map (fun c => c ++ suffix ++ toString lag)
  val := fun t j =>
    if t ∈ s.timeIndex ∧ j < s.comps.length then s.atTime (t + lag) j else none

/-- Positional cell lookup through a list of horizontally concatenated frames. -/
def concatVal : List DFrame → ℤ → ℕ → Option ℚ
  | [], _, _ => none
  | df :: rest, t, j =>
    if j < df.cols.length then df.val t j else concatVal rest t (j - df.cols.length)

/-- `pd.concat(dfs, axis=1)` (outer join): union of the indexes, columns
concatenated positionally. -/
def concatCols (dfs : List DFrame) : DFrame where
  index := sortedUnion (dfs.map (·.index))
  cols := (dfs.map (·.cols)).flatten
  val := fun t j => concatVal dfs t j

/-- `df.dropna()`: keep exactly the rows in which every column has a value. -/
def dropna (df : DFrame) : DFrame where
  index := df.index.filter (fun t => (List.range df.cols.length).all (fun j => (df.val t j).isSome))
  cols := df.cols
  val := df.val

/-- The model's lag configuration `self.model.lags`: optional lists of integer
lag offsets for the target, past covariates and future covariates. -/
structure Lags where
  target : Option (List ℤ)
  past : Option (List ℤ)
  future : Option (List ℤ)
deriving DecidableEq, Repr

/-- The covariate branch of `_create_RegressionModel_shap_X`:
`if lags:` skips a missing or empty lag list, and `df_cov.shift(...)` raises
`AttributeError` when lags are configured but the covariate is `None`. -/
def covFrames (cov : Option TimeSeries) (lagsOpt : Option (List ℤ)) (suffix : String) :
    Except PyErr (List DFrame) :=
  match lagsOpt with
  | none => Except.ok []
  | some ls =>
    if ls.isEmpty then Except.ok []
    else
      match cov with
      | some c => Except.ok (ls.map (fun l => laggedFrame c l suffix))
      | none => Except.error PyErr.attributeError

/-- The `df_X` list built by `_create_RegressionModel_shap_X`: target lag
frames first, then past covariate lag frames, then future covariate lag
frames, one frame per configured lag in configured order. -/
def targetFrames (lags : Lags) (tgt : TimeSeries) : List DFrame :=
  match lags.target with
  | some ls => ls.map (fun l => laggedFrame tgt l "_target_lag")
  | none => []

def shapFrames (lags : Lags) (tgt : TimeSeries) (pc fc : Option TimeSeries) :
    Except PyErr (List DFrame) :=
  match covFrames pc lags.past "_past_cov_lag" with
  | Except.error err => Except.error err
  | Except.ok pf =>
    match covFrames fc lags.future "_fut_cov_lag" with
    | Except.error err => Except.error err
    | Except.ok ffr => Except.ok (targetFrames lags tgt ++ pf ++ ffr)

/-- `RegressionShapExplainers._create_RegressionModel_shap_X` for one series
(the single-`TimeSeries` call shape used by the explainer): build the shifted,
renamed frames, `pd.concat(df_X, axis=1)` (which raises on an empty list), and
`dropna()`.  Sampling is not exercised (`n_samples` is `None` at every call
site reached from the embedded paths). -/
def create_RegressionModel_shap_X (lags : Lags) (tgt : TimeSeries)
    (pc fc : Option TimeSeries) : Except PyErr DFrame :=
  match shapFrames lags tgt pc fc with
  | Except.error err => Except.error err
  | Except.ok frames =>
    if frames.isEmpty then
      Except.error (PyErr.valueError "No objects to concatenate")
    else
      Except.ok (dropna (concatCols frames))

/-! ## Save/load round-trip (claim C9)

The forecasting models' `save`/`load`/`predict` implementations are not under
`src/` (only the test `test_save_load_model` is).  Modelled from the spec:
a fitted regression-style forecasting model is its fitted state (lag
coefficients, intercept, training history); `save` serializes that state to a
flat list and `load` parses it back; the test then asserts that the loaded
model's forecast over the same horizon equals the original forecast. -/

/-- Modelled from the spec: the fitted state of a regression-style forecasting
model exercised by `test_save_load_model` (e.g. `LinearRegressionModel(lags=12)`
fitted on a series). -/
structure FittedLinModel where
  coefs : List ℚ
  intercept : ℚ
  history : List ℚ
deriving DecidableEq, Repr

/-- One-step-ahead prediction from a history. -/
def FittedLinModel.step (m : FittedLinModel) (hist : List ℚ) : ℚ :=
  m.intercept + ((m.coefs.zip (hist.reverse.take m.coefs.length)).map (fun p => p.1 * p.2)).sum

/-- Autoregressive multi-step prediction: each prediction is appended to the
history before predicting the next step. -/
def predictFrom (m : FittedLinModel) (hist : List ℚ) : ℕ → List ℚ
  | 0 => []
  | n + 1 =>
    let y := m.step hist
    y :: predictFrom m (hist ++ [y]) n

/-- `model.predict(n)`: forecast `n` steps past the training history. -/
def FittedLinModel.predict (m : FittedLinModel) (n : ℕ) : List ℚ :=
  predictFrom m m.history n

/-- Modelled from the spec: `model.save(path)` serializes the fitted state. -/
def FittedLinModel.save (m : FittedLinModel) : List ℚ :=
  (m.coefs.length : ℚ) :: (m.coefs ++ m.intercept :: (m.history.length : ℚ) :: m.history)

/-- Modelled from the spec: `Model.load(path)` deserializes a fitted model. -/
def loadModel (bytes : List ℚ) : Option FittedLinModel :=
  match bytes with
  | [] => none
  | cLen :: rest =>
    let k := cLen.num.toNat
    let coefs := rest.take k
    match rest.drop k with
    | intercept :: hLen :: hist =>
      if coefs.length = k ∧ hist.length = hLen.num.toNat then
        some ⟨coefs, intercept, hist⟩
      else none
    | _ => none

theorem loadModel_save (m : FittedLinModel) : loadModel m.save = some m := by
  unfold loadModel FittedLinModel.save
  have hk : ((m.coefs.length : ℚ)).num.toNat = m.coefs.length := by
    simp
  have htake : (m.coefs ++ m.intercept :: ((m.history.length : ℚ)) :: m.history).take m.coefs.length = m.coefs :=
    List.take_left _ _
  have hdrop : (m.coefs ++ m.intercept :: ((m.history.length : ℚ)) :: m.history).drop m.coefs.length = m.intercept :: ((m.history.length : ℚ)) :: m.history :=
    List.drop_left _ _
  simp only [hk, htake, hdrop]
  simp

/-- Claim C9: for the models exercised by the save/load test, saving the fitted
model and loading it back yields a model whose prediction over the same horizon
equals the original model's prediction. -/
theorem save_load_roundtrip_pred (m : FittedLinModel) (n : ℕ) :
    (loadModel m.save).map (fun m2 => m2.predict n) = some (m.predict n) := by
  rw [loadModel_save]
  rfl

/-! ## The attribution engines and dispatcher (`RegressionShapExplainers`) -/

/-- One fitted sklearn estimator from `self.model.model.estimators_` (the
per-output ensemble of a `MultiOutputRegressor`). -/
structure SkEstimator where
  id : ℕ
  isTree : Bool
deriving DecidableEq, Repr

instance : Inhabited SkEstimator := ⟨⟨0, false⟩⟩

/-- What a shap engine wraps: the whole fitted model, or one per-output
estimator of the ensemble. -/
inductive EngineTarget where
  | fullModel
  | subEstimator (est : SkEstimator)
deriving DecidableEq, Repr

/-- A shap attribution engine: what it wraps, whether the tree-specific
algorithm was substituted, and the background data it depends on (`none` for
the background-free tree engine). -/
structure Engine where
  target : EngineTarget
  isTreeExplainer : Bool
  background : Option DFrame

instance : Inhabited Engine := ⟨⟨EngineTarget.fullModel, false, none⟩⟩

/-- `shap.Explainer(estimator, background)` followed by the source's
tree-substitution: when the auto-selected engine is the tree one
(`isinstance(..., shap.explainers._tree.Tree)`, i.e. the estimator is
tree-based), it is replaced by `shap.TreeExplainer(estimator)` without
background. -/
def mkEngine (est : SkEstimator) (bgX : DFrame) : Engine :=
  if est.isTree then ⟨EngineTarget.subEstimator est, true, none⟩
  else ⟨EngineTarget.subEstimator est, false, some bgX⟩

/-- The single engine of the `else` branch of `__init__`, wrapping the whole
fitted model, with the same tree substitution. -/
def mkFullEngine (modelIsTree : Bool) (bgX : DFrame) : Engine :=
  if modelIsTree then ⟨EngineTarget.fullModel, true, none⟩
  else ⟨EngineTarget.fullModel, false, some bgX⟩

/-- Result of applying an engine that explains a single-output estimator:
per-row, per-feature attribution values and per-row base values (possibly
nested one level, flattened later by `.ravel()`). -/
structure Expl2 where
  values : List (List ℚ)
  baseValues : List (List ℚ)
deriving DecidableEq, Repr

/-- Result of applying the single multi-output engine: attribution values
indexed by row, feature and flat output position, and base values indexed by
row and flat output position. -/
structure Expl3 where
  values : List (List (List ℚ))
  baseValues : List (List ℚ)
deriving DecidableEq, Repr

instance : Inhabited Expl3 := ⟨⟨[], []⟩⟩

/-- The `shap._explanation.Explanation` returned by `shap_values_from_X`, after
the source attaches `time_index` and ravels `base_values`. -/
structure Explanation where
  values : List (List ℚ)
  baseValues : List ℚ
  timeIndex : List ℤ
deriving DecidableEq, Repr

/-- `explanation[:, :, k]` on a multi-output result, followed by the source's
`time_index` attachment and `base_values.ravel()`. -/
def sliceOutput (ex : Expl3) (k : ℕ) (idx : List ℤ) : Explanation :=
  { values := ex.values.map (fun row => row.map (fun feat => feat.getD k 0))
    baseValues := ex.baseValues.map (fun row => row.getD k 0)
    timeIndex := idx }

/-- A single-output engine result, followed by the source's `time_index`
attachment and `base_values.ravel()`. -/
def finalize2 (e : Expl2) (idx : List ℤ) : Explanation :=
  { values := e.values, baseValues := e.baseValues.flatten, timeIndex := idx }

/-- The fitted model data the dispatcher reads: `output_chunk_length`,
`input_dim["target"]`, the sklearn `multioutput` tag, whether the model is
tree-based, the ensemble's `estimators_`, the lag configuration, and the
external attribution library's behaviour on each engine
(`attr2` for single-output engines, `fullAttr3` for the native multi-output
engine; the library is outside this repository, so it enters as data). -/
structure Config where
  ocl : ℕ
  targetDim : ℕ
  multioutput : Bool
  modelIsTree : Bool
  estimators : List SkEstimator
  lags : Lags
  attr2 : Engine → DFrame → Expl2
  fullAttr3 : Engine → DFrame → Expl3

/-- `self.explainers`: either the per-output dict of engines or a single
engine. -/
inductive Explainers where
  | dict (engines : List (List Engine))
  | single (e : Engine)

/-- The engine-construction dispatch of `RegressionShapExplainers.__init__`:
one engine per `(horizon, target)` pair wrapping `estimators_[i + j]` when the
estimator is a per-output ensemble, otherwise a single engine wrapping the
whole model. -/
def mkExplainers (cfg : Config) (bgX : DFrame) : Explainers :=
  if (1 < cfg.targetDim ∨ 1 < cfg.ocl) ∧ ¬cfg.multioutput then
    Explainers.dict ((List.range cfg.ocl).map (fun i =>
      (List.range cfg.targetDim).map (fun j =>
        mkEngine (cfg.estimators.getD (i + j) default) bgX)))
  else
    Explainers.single (mkFullEngine cfg.modelIsTree bgX)

/-- `self.explainers[i][j]` (with a default for out-of-range positions, used
only to state concrete evaluations). -/
def engineAt (ex : Explainers) (i j : ℕ) : Engine :=
  match ex with
  | Explainers.dict engines => (engines.getD i []).getD j default
  | Explainers.single e => e

/-- The mutable state of a `RegressionShapExplainers` instance. -/
structure ShapState where
  cfg : Config
  targetDict : List String
  explainers : Explainers
  backgroundX : DFrame
  cacheFgSeries : Option TimeSeries
  cacheFgPast : Option TimeSeries
  cacheFgFut : Option TimeSeries
  cacheFgX : Option DFrame
  cacheExpl : Option Expl3
  foregroundChanged : Bool

/-- `self.target_dict[target_name]`: position of the name among the background
series' columns, `KeyError` when absent. -/
def targetDictLookup (td : List String) (t : String) : Except PyErr ℕ :=
  match td.findIdx? (fun c => c = t) with
  | some i => Except.ok i
  | none => Except.error PyErr.keyError

/-- `RegressionShapExplainers.shap_values_from_X`: dispatch between the
per-output dict of engines, the single native multi-output engine (sliced at
flat output position `horizon * target_dict[t] + target_dict[t]`, recomputed
only when the foreground changed), and the single-output engine which ignores
`horizon` and `target_name`. -/
def shapValuesFromX (st : ShapState) (X : DFrame) (h : ℕ) (t : String) :
    Except PyErr (Explanation × ShapState) :=
  if 1 < st.cfg.targetDim ∨ 1 < st.cfg.ocl then
    match st.explainers with
    | Explainers.dict engines =>
      -- assert isinstance(self.model.model, MultiOutputRegressor): darts wraps
      -- the estimator in MultiOutputRegressor exactly when it lacks the native
      -- multioutput tag
      if st.cfg.multioutput then Except.error PyErr.assertionError
      else
        match engines[h]? with
        | none => Except.error PyErr.keyError
        | some row =>
          match targetDictLookup st.targetDict t with
          | Except.error err => Except.error err
          | Except.ok ti =>
            match row[ti]? with
            | none => Except.error PyErr.keyError
            | some eng => Except.ok (finalize2 (st.cfg.attr2 eng X) X.index, st)
    | Explainers.single eng =>
      let stex :=
        if st.foregroundChanged then
          let ex := st.cfg.fullAttr3 eng X
          ({ st with cacheExpl := some ex }, ex)
        else (st, st.cacheExpl.getD default)
      match targetDictLookup st.targetDict t with
      | Except.error err => Except.error err
      | Except.ok ti => Except.ok (sliceOutput stex.2 (h * ti + ti) X.index, stex.1)
  else
    match st.explainers with
    | Explainers.single eng => Except.ok (finalize2 (st.cfg.attr2 eng X) X.index, st)
    | Explainers.dict _ => Except.error PyErr.typeError

/-- `index1 == index2` on pandas indexes: elementwise comparison, raising when
the lengths differ. -/
def indexEqArr (a b : List ℤ) : Except PyErr (List Bool) :=
  if a.length = b.length then
    Except.ok ((a.zip b).map (fun p => decide (p.1 = p.2)))
  else Except.error (PyErr.valueError "Lengths must match to compare")

/-- Python truthiness of a numpy boolean array, required by the chained
comparison: a one-element array yields its element, anything else raises. -/
def arrTruthy (l : List Bool) : Except PyErr Bool :=
  match l with
  | [b] => Except.ok b
  | _ => Except.error (PyErr.valueError "The truth value of an array with more than one element is ambiguous")

/-- `all(fs.time_index == fp.time_index == ff.time_index)`: the chained
comparison evaluates `fs.time_index == fp.time_index` (AttributeError when the
covariate is None), converts that array to a truth value, and only when truthy
evaluates the second comparison; `all` is then applied elementwise to whichever
array the chain produced. -/
def chainedTimeIndexAllEqual (fs : TimeSeries) (fp ff : Option TimeSeries) :
    Except PyErr Bool := do
  let fpv ← match fp with
    | some p => Except.ok p
    | none => Except.error PyErr.attributeError
  let arr1 ← indexEqArr fs.timeIndex fpv.timeIndex
  let b1 ← arrTruthy arr1
  if b1 then do
    let ffv ← match ff with
      | some q => Except.ok q
      | none => Except.error PyErr.attributeError
    let arr2 ← indexEqArr fpv.timeIndex ffv.timeIndex
    Except.ok (arr2.all id)
  else
    Except.ok (arr1.all id)

/-- Restriction of a series to the timestamps in `[lo, hi)`. -/
def restrictTS (s : TimeSeries) (lo hi : ℤ) : TimeSeries :=
  { start := lo, comps := s.comps,
    rows := (s.rows.drop (lo - s.start).toNat).take (hi - lo).toNat }

/-- Modelled from the spec: `darts.utils.retain_period_common_to_all` is not
under `src/`; per the spec, the computation proceeds on "the period common to
all supplied inputs", i.e. each series restricted to the overlap of the three
time spans. -/
def retain_period_common_to_all (a b c : TimeSeries) :
    TimeSeries × TimeSeries × TimeSeries :=
  let lo := max a.start (max b.start c.start)
  let hi := min (a.start + a.rows.length) (min (b.start + b.rows.length) (c.start + c.rows.length))
  (restrictTS a lo hi, restrictTS b lo hi, restrictTS c lo hi)

/-- The warning text logged (not raised) on an inconsistent time index. -/
def indexWarning : String :=
  "The series and covariates do not share the same time index. We will take the time index common to all."

/-- The body of `RegressionShapExplainers.shap_values` after the index check
and the restriction to the common period: rebuild the lagged foreground matrix
only when the restricted inputs differ from the cached ones, then dispatch on
the cached matrix. -/
def shapValuesAfterCheck (st : ShapState) (rs rp rf : TimeSeries) (h : ℕ) (t : String)
    (warnings : List String) : Except PyErr (Explanation × List String × ShapState) :=
  if st.cacheFgSeries ≠ some rs ∨ st.cacheFgPast ≠ some rp ∨ st.cacheFgFut ≠ some rf then
    match create_RegressionModel_shap_X st.cfg.lags rs (some rp) (some rf) with
    | Except.error err => Except.error err
    | Except.ok X =>
      let st1 :=
        { st with
          cacheFgSeries := some rs
          cacheFgPast := some rp
          cacheFgFut := some rf
          foregroundChanged := true
          cacheFgX := some X }
      match shapValuesFromX st1 (st1.cacheFgX.getD emptyDF) h t with
      | Except.error err => Except.error err
      | Except.ok est2 => Except.ok (est2.1, warnings, est2.2)
  else
    let st1 := { st with foregroundChanged := false }
    match shapValuesFromX st1 (st1.cacheFgX.getD emptyDF) h t with
    | Except.error err => Except.error err
    | Except.ok est2 => Except.ok (est2.1, warnings, est2.2)

/-- `RegressionShapExplainers.shap_values`: the chained index check (warning on
an inconsistent but comparable index), restriction to the common period, then
the cached-matrix dispatch.  The returned list collects the emitted warnings. -/
def RegressionShapExplainers.shap_values (st : ShapState) (fs : TimeSeries)
    (fp ff : Option TimeSeries) (h : ℕ) (t : String) :
    Except PyErr (Explanation × List String × ShapState) :=
  match chainedTimeIndexAllEqual fs fp ff with
  | Except.error err => Except.error err
  | Except.ok allEq =>
    let warnings := if allEq then [] else [indexWarning]
    match fp, ff with
    | some fpv, some ffv =>
      let rst := retain_period_common_to_all fs fpv ffv
      shapValuesAfterCheck st rst.1 rst.2.1 rst.2.2 h t warnings
    -- the (out-of-src) retain_period_common_to_all helper rejects a missing
    -- covariate series; unreachable for a missing past covariate, which the
    -- chained comparison already rejected
    | none, _ => Except.error PyErr.attributeError
    | _, none => Except.error PyErr.attributeError

/-- `RegressionShapExplainers.__init__`: build the background matrix, the
target dictionary from the background series' columns, the engines, and the
initial (empty) foreground cache. -/
def RegressionShapExplainers.construct (cfg : Config) (bgSeries : TimeSeries)
    (bgPast bgFut : Option TimeSeries) : Except PyErr ShapState := do
  let bgX ← create_RegressionModel_shap_X cfg.lags bgSeries bgPast bgFut
  Except.ok
    { cfg := cfg
      targetDict := bgSeries.comps
      explainers := mkExplainers cfg bgX
      backgroundX := bgX
      cacheFgSeries := none
      cacheFgPast := none
      cacheFgFut := none
      cacheFgX := none
      cacheExpl := none
      foregroundChanged := true }

/-- The kind of forecasting model handed to `ShapExplainer.__init__`. -/
inductive ModelFamily where
  | regressionModel (subclassName : String)
  | nonRegression (className : String)
deriving DecidableEq, Repr

/-- `issubclass(type(model), RegressionModel)`. -/
def isRegressionSubclass : ModelFamily → Bool
  | ModelFamily.regressionModel _ => true
  | ModelFamily.nonRegression _ => false

/-- `ShapExplainer.__init__`: reject any model that is not a `RegressionModel`
subclass, otherwise build the `RegressionShapExplainers`. -/
def ShapExplainer.construct (m : ModelFamily) (cfg : Config) (bgSeries : TimeSeries)
    (bgPast bgFut : Option TimeSeries) : Except PyErr ShapState :=
  if isRegressionSubclass m then
    RegressionShapExplainers.construct cfg bgSeries bgPast bgFut
  else
    Except.error (PyErr.valueError "Invalid model type. For now, only RegressionModel type can be explained.")

/-- `ShapExplainer.shap_values`: loop over the requested horizons and targets
(defaulting to all of them), collecting one explanation per pair. -/
def shapValuesLoop : ShapState → TimeSeries → Option TimeSeries → Option TimeSeries →
    List (ℕ × String) → Except PyErr (List ((ℕ × String) × Explanation) × ShapState)
  | st, _, _, _, [] => Except.ok ([], st)
  | st, fs, fp, ff, (h, t) :: rest => do
    let ews ← RegressionShapExplainers.shap_values st fs fp ff h t
    let tail ← shapValuesLoop ews.2.2 fs fp ff rest
    Except.ok (((h, t), ews.1) :: tail.1, tail.2)

/-- `ShapExplainer.shap_values` with its defaults: `target_names` defaults to
`self.target_names` (the background series' columns, per the spec) and
`horizons` defaults to `range(self.n)` with `n := output_chunk_length`. -/
def ShapExplainer.shap_values (st : ShapState) (fs : TimeSeries)
    (fp ff : Option TimeSeries) (horizons : Option (List ℕ))
    (targetNames : Option (List String)) :
    Except PyErr (List ((ℕ × String) × Explanation) × ShapState) :=
  let ts := targetNames.getD st.targetDict
  let hs := horizons.getD (List.range st.cfg.ocl)
  shapValuesLoop st fs fp ff (hs.flatMap (fun h => ts.map (fun t => (h, t))))

def listMax (l : List ℕ) : ℕ := l.foldr max 0

/-- The attribution calls performed by `summary_plot` after validation, one per
`(target, horizon)` pair, threading the explainer state. -/
def summaryPlotCalls (X : DFrame) : ShapState → List (ℕ × String) →
    Except PyErr (List Explanation × ShapState)
  | st, [] => Except.ok ([], st)
  | st, (h, t) :: rest => do
    let est ← shapValuesFromX st X h t
    let tail ← summaryPlotCalls X est.2 rest
    Except.ok (est.1 :: tail.1, tail.2)

/-- `ShapExplainer.summary_plot` (without the matplotlib side effects and with
`nb_samples = None`, so the foreground is the background matrix): validate the
requested target names against `self.target_names` (the background columns) and
the requested horizons against `self.n - 1 = output_chunk_length - 1`, then
compute one explanation per `(target, horizon)` pair. -/
def ShapExplainer.summary_plot (st : ShapState) (targetNames : Option (List String))
    (horizons : Option (List ℕ)) : Except PyErr (List Explanation × ShapState) := do
  (match targetNames with
   | some ts =>
     if ts.any (fun tn => ! st.targetDict.contains tn) then
       Except.error (PyErr.valueError "One of the target names does not exist in the original background ts.")
     else Except.ok ()
   | none => Except.ok ())
  (match horizons with
   | some hs =>
     if hs.isEmpty then Except.error (PyErr.valueError "max() arg is an empty sequence")
     else if (st.cfg.ocl : ℤ) - 1 < (listMax hs : ℤ) then
       Except.error (PyErr.valueError "One of the horizons is greater than the model output_chunk_length.")
     else Except.ok ()
   | none => Except.ok ())
  let ts := targetNames.getD st.targetDict
  let hs := horizons.getD (List.range st.cfg.ocl)
  summaryPlotCalls st.backgroundX st (ts.flatMap (fun t => hs.map (fun hz => (hz, t))))

/-- Discard the foreground cache, yielding the state a freshly constructed
explainer (same model, same background) would start from. -/
def resetCaches (st : ShapState) : ShapState :=
  { st with
    cacheFgSeries := none
    cacheFgPast := none
    cacheFgFut := none
    cacheFgX := none
    cacheExpl := none
    foregroundChanged := true }

/-! ## Concrete instantiations shared by the claim evaluations -/

/-- A trivial external single-output engine behaviour. -/
def dummyAttr2 : Engine → DFrame → Expl2 := fun _ _ => ⟨[], []⟩

/-- A trivial external multi-output engine behaviour. -/
def dummyAttr3 : Engine → DFrame → Expl3 := fun _ _ => ⟨[], []⟩

/-- An explainer state with empty caches, as left by `__init__`. -/
def plainState (cfg : Config) (td : List String) (ex : Explainers) : ShapState :=
  ⟨cfg, td, ex, emptyDF, none, none, none, none, none, true⟩

def exceptOk {ε α : Type} : Except ε α → Bool
  | Except.ok _ => true
  | Except.error _ => false

/-! ## Claim C1: native multi-output slicing -/

/-- A concrete external multi-output engine with four distinguishable flat
outputs (output_chunk_length 2 × target_dim 2). -/
def c1attr3 : Engine → DFrame → Expl3 := fun _ _ => ⟨[[[10, 11, 12, 13]]], [[20, 21, 22, 23]]⟩

def c1ex3 : Expl3 := ⟨[[[10, 11, 12, 13]]], [[20, 21, 22, 23]]⟩

def c1cfg : Config := ⟨2, 2, true, false, [], ⟨some [-1], none, none⟩, dummyAttr2, c1attr3⟩

def c1st : ShapState := plainState c1cfg ["a", "b"] (Explainers.single (mkFullEngine false emptyDF))

/-- Claim C1, evaluated at the failing input: in the native multi-output case
(target_dim 2, output_chunk_length 2), `shap_values_from_X` at horizon 1 and
the first target name returns the slice at flat output position
`1 * target_index + target_index = 0`, which differs from the slice at the
attribution library's layout position `1 * target_dim + target_index = 2`
that the claim requires. -/
theorem native_multioutput_slice_slip :
    (shapValuesFromX c1st emptyDF 1 "a").map (fun r => r.1) =
      Except.ok (sliceOutput c1ex3 (1 * 0 + 0) []) ∧
    sliceOutput c1ex3 (1 * 0 + 0) [] ≠ sliceOutput c1ex3 (1 * 2 + 0) [] := by
  exact ⟨rfl, by decide⟩

/-! ## Claim C2: per-output ensemble engine construction -/

def c2cfg : Config :=
  ⟨2, 2, false, false, [⟨0, false⟩, ⟨1, false⟩, ⟨2, false⟩, ⟨3, false⟩],
   ⟨some [-1], none, none⟩, dummyAttr2, dummyAttr3⟩

def c2ex : Explainers := mkExplainers c2cfg emptyDF

/-- Claim C2, evaluated at the failing input: with output_chunk_length 2 and
target_dim 2 the per-output dispatch builds the engine for pair `(i, j)`
around `estimators_[i + j]`: the engine for pair (1, 1) wraps estimator 2
rather than estimator `1 * target_dim + 1 = 3`, and the distinct pairs (0, 1)
and (1, 0) wrap the same estimator. -/
theorem perOutput_engine_indexing_slip :
    (engineAt c2ex 1 1).target = EngineTarget.subEstimator ⟨2, false⟩ ∧
    (⟨2, false⟩ : SkEstimator) ≠ ⟨1 * 2 + 1, false⟩ ∧
    engineAt c2ex 0 1 = engineAt c2ex 1 0 := by
  exact ⟨rfl, by decide, rfl⟩

/-! ## Claim C3: where validation happens -/

def c3cfg : Config := ⟨1, 1, true, false, [], ⟨some [-1], none, none⟩, dummyAttr2, dummyAttr3⟩

def c3st : ShapState := plainState c3cfg ["a"] (Explainers.single (mkFullEngine false emptyDF))

def c3fs : TimeSeries := ⟨0, ["a"], [[1]]⟩
def c3fp : TimeSeries := ⟨0, ["p"], [[2]]⟩
def c3ff : TimeSeries := ⟨0, ["f"], [[3]]⟩

/-- Claim C3, counterexample: requesting attribution through `shap_values` for
horizon 5 — beyond `output_chunk_length = 1` — and the target name "zzz" —
absent from the background columns `["a"]` — succeeds without raising any
validation error (the single-engine path ignores both arguments). -/
theorem shap_values_skips_validation :
    exceptOk (ShapExplainer.shap_values c3st c3fs (some c3fp) (some c3ff)
      (some [5]) (some ["zzz"])) = true := by
  rfl

theorem le_listMax (h0 : ℕ) (l : List ℕ) (hmem : h0 ∈ l) : h0 ≤ listMax l := by
  induction l with
  | nil => cases hmem
  | cons a as ih =>
    rcases List.mem_cons.mp hmem with h | h
    · subst h; simp [listMax]
    · calc h0 ≤ listMax as := ih h
        _ ≤ max a (listMax as) := le_max_right _ _

/-- Claim C3, amended: the requested-name/requested-horizon validation lives in
`summary_plot` (not in `shap_values`/`explain_from_input`): it raises a
validation error whenever a requested target name is absent from the
background columns, or — when all names are present — whenever some requested
horizon exceeds `output_chunk_length - 1`. -/
theorem summary_plot_validates (st : ShapState) (ts : List String) (hs : List ℕ)
    (hbad : (∃ tn ∈ ts, st.targetDict.contains tn = false) ∨
            ((∀ tn ∈ ts, st.targetDict.contains tn = true) ∧
              ∃ h0 ∈ hs, (st.cfg.ocl : ℤ) - 1 < (h0 : ℤ))) :
    ∃ msg, ShapExplainer.summary_plot st (some ts) (some hs) =
      Except.error (PyErr.valueError msg) := by
  rcases hbad with ⟨tn, htn, hc⟩ | ⟨hall, h0, hh0, hgt⟩
  · have hex : ∃ x ∈ ts, x ∉ st.targetDict := ⟨tn, htn, by simpa using hc⟩
    refine ⟨"One of the target names does not exist in the original background ts.", ?_⟩
    unfold ShapExplainer.summary_plot
    simp [hex, Bind.bind, Except.bind]
  · have hex : ¬ ∃ x ∈ ts, x ∉ st.targetDict := by
      rintro ⟨x, hx, hnot⟩
      exact hnot (by simpa using hall x hx)
    have hne : hs.isEmpty = false := by
      cases hs with
      | nil => cases hh0
      | cons a as => rfl
    have hmax : (st.cfg.ocl : ℤ) - 1 < (listMax hs : ℤ) := by
      calc (st.cfg.ocl : ℤ) - 1 < (h0 : ℤ) := hgt
        _ ≤ (listMax hs : ℤ) := by exact_mod_cast le_listMax h0 hs hh0
    refine ⟨"One of the horizons is greater than the model output_chunk_length.", ?_⟩
    unfold ShapExplainer.summary_plot
    simp [hex, hne, hmax, Bind.bind, Except.bind]

/-- Witness for the amended claim C3 at a concrete input. -/
theorem summary_plot_validates_witness :
    ∃ msg, ShapExplainer.summary_plot c3st (some ["zzz"]) (some [0]) =
      Except.error (PyErr.valueError msg) :=
  summary_plot_validates c3st ["zzz"] [0]
    (Or.inl ⟨"zzz", by decide, by decide⟩)

/-! ## Claim C4: None covariates -/

/-- Claim C4, evaluated at the failing input: for every explainer state,
foreground series and remaining arguments, calling `shap_values` with the past
covariates left unspecified raises `AttributeError` (`None.time_index` in the
chained index comparison) instead of succeeding. -/
theorem shap_values_none_covariates_raises (st : ShapState) (fs : TimeSeries)
    (ff : Option TimeSeries) (h : ℕ) (t : String) :
    RegressionShapExplainers.shap_values st fs none ff h t =
      Except.error PyErr.attributeError := by
  rfl

/-! ## Claim C7: construction-time model-type validation -/

def c7cfg : Config := ⟨1, 1, false, false, [], ⟨some [-1], none, none⟩, dummyAttr2, dummyAttr3⟩

/-- Claim C7: constructing the explainer with a forecasting model outside the
supported regression-model family fails at construction time with the
invalid-model-type error. -/
theorem construct_rejects_non_regression (m : ModelFamily) (cfg : Config)
    (bgSeries : TimeSeries) (bgPast bgFut : Option TimeSeries)
    (hm : isRegressionSubclass m = false) :
    ShapExplainer.construct m cfg bgSeries bgPast bgFut =
      Except.error (PyErr.valueError "Invalid model type. For now, only RegressionModel type can be explained.") := by
  unfold ShapExplainer.construct
  simp [hm]

/-- Witness for claim C7 at a concrete non-regression model. -/
theorem construct_rejects_non_regression_witness :
    isRegressionSubclass (ModelFamily.nonRegression "ExponentialSmoothing") = false ∧
    ShapExplainer.construct (ModelFamily.nonRegression "ExponentialSmoothing") c7cfg
        ⟨0, ["a"], [[1]]⟩ none none =
      Except.error (PyErr.valueError "Invalid model type. For now, only RegressionModel type can be explained.") :=
  ⟨rfl, construct_rejects_non_regression _ _ _ _ _ rfl⟩

/-! ## Claim C8: inconsistent time indexes -/

def c8fs : TimeSeries := ⟨0, ["a"], [[1], [2]]⟩
def c8fp : TimeSeries := ⟨0, ["p"], [[3], [4]]⟩
def c8ff : TimeSeries := ⟨1, ["f"], [[5], [6]]⟩

/-- Claim C8, evaluated at the failing input: for length-2 foreground inputs
that do not all share the same time index (series and past covariates on
{0, 1}, future covariates on {1, 2}), `shap_values` raises a `ValueError`
(ambiguous truth value of a length-2 boolean array in the chained index
comparison) instead of emitting the warning and proceeding. -/
theorem index_mismatch_raises_not_warns :
    RegressionShapExplainers.shap_values c3st c8fs (some c8fp) (some c8ff) 0 "a" =
      Except.error (PyErr.valueError "The truth value of an array with more than one element is ambiguous") := by
  rfl

/-! ## Claim C10: the single-engine path ignores horizon and target name -/

/-- Claim C10: when the model has a single target component and
output_chunk_length 1, `shap_values_from_X` returns the same result for every
value of its horizon and target-name arguments — including out-of-range
horizons and names absent from the background columns — since the
single-engine path ignores both. -/
theorem single_path_ignores_args (st : ShapState) (X : DFrame) (h : ℕ) (t : String)
    (h2 : ℕ) (t2 : String) (htd : st.cfg.targetDim = 1) (hocl : st.cfg.ocl = 1) :
    shapValuesFromX st X h t = shapValuesFromX st X h2 t2 := by
  unfold shapValuesFromX
  simp [htd, hocl]

def c10cfg : Config := ⟨1, 1, true, false, [], ⟨some [-1], none, none⟩, dummyAttr2, dummyAttr3⟩

def c10st : ShapState := plainState c10cfg ["a"] (Explainers.single (mkFullEngine false emptyDF))

/-- Witness for claim C10 at a concrete state, with an out-of-range horizon and
an unknown target name on one side. -/
theorem single_path_ignores_args_witness :
    shapValuesFromX c10st emptyDF 0 "a" = shapValuesFromX c10st emptyDF 99 "zzz" :=
  single_path_ignores_args c10st emptyDF 0 "a" 99 "zzz" rfl rfl

/-! ## Claim C6: the lagged design matrix

Specification side: the matrix is described by the ordered list of
`(variable, lag)` combinations — target lags first, then past covariate lags,
then future covariate lags, in the configured lag order — expanded to one
column per component per lag, with the cell at time `t` holding the series
value at `t + lag`, and with exactly the rows in which every column has a
value. -/

/-- The three variable groups of the design matrix. -/
inductive LagVar where
  | target
  | pastCov
  | futCov
deriving DecidableEq, Repr

def lagSuffix : LagVar → String
  | LagVar.target => "_target_lag"
  | LagVar.pastCov => "_past_cov_lag"
  | LagVar.futCov => "_fut_cov_lag"

/-- The ordered `(series, variable, lag)` combinations of the design matrix:
target lags first, then past covariate lags, then future covariate lags, each
in the model's configured lag order. -/
def lagPairs (lags : Lags) (tgt : TimeSeries) (pc fc : Option TimeSeries) :
    List (TimeSeries × LagVar × ℤ) :=
  (match lags.target with
   | some ls => ls.map (fun l => (tgt, LagVar.target, l))
   | none => [])
  ++ (match lags.past, pc with
      | some ls, some c => if ls.isEmpty then [] else ls.map (fun l => (c, LagVar.pastCov, l))
      | _, _ => [])
  ++ (match lags.future, fc with
      | some ls, some c => if ls.isEmpty then [] else ls.map (fun l => (c, LagVar.futCov, l))
      | _, _ => [])

/-- One column descriptor per component of a `(series, variable, lag)`
combination. -/
def pairDescs (p : TimeSeries × LagVar × ℤ) : List (TimeSeries × LagVar × ℤ × ℕ) :=
  (List.range p.1.comps.length).map (fun k => (p.1, p.2.1, p.2.2, k))

/-- The ordered column descriptors of the design matrix. -/
def shapDescriptors (lags : Lags) (tgt : TimeSeries) (pc fc : Option TimeSeries) :
    List (TimeSeries × LagVar × ℤ × ℕ) :=
  (lagPairs lags tgt pc fc).flatMap pairDescs

/-- The column name of a descriptor: component name, group suffix, lag. -/
def descName : TimeSeries × LagVar × ℤ × ℕ → String
  | (s, v, l, k) => s.comps.getD k "" ++ lagSuffix v ++ toString l

/-- The expected column labels of the design matrix. -/
def expectedShapCols (lags : Lags) (tgt : TimeSeries) (pc fc : Option TimeSeries) :
    List String :=
  (shapDescriptors lags tgt pc fc).map descName

/-- The value a descriptor list prescribes for time `t` and column position
`j`: the descriptor's series shifted by its lag, defined only on the rows of
that series' own frame. -/
def rawLookup (ds : List (TimeSeries × LagVar × ℤ × ℕ)) (t : ℤ) (j : ℕ) : Option ℚ :=
  match ds[j]? with
  | some (s, _, l, k) => if t ∈ s.timeIndex then s.atTime (t + l) k else none
  | none => none

/-- The specified cell content of the design matrix. -/
def shapRawVal (lags : Lags) (tgt : TimeSeries) (pc fc : Option TimeSeries)
    (t : ℤ) (j : ℕ) : Option ℚ :=
  rawLookup (shapDescriptors lags tgt pc fc) t j

/-- Modelled from the spec: the training-time feature ordering of the
underlying regression model (`_create_lagged_data` of `regression_model` is
not under `src/`).  Per the spec's invariant and the module docstring,
training features are ordered `lags_target | lags_past_covariates |
lags_future_covariates`; within each block one column per lag in the
configured order, and one column per component inside each lag
(`lag_-2_comp_1 | lag_-2_comp_2 | lag_-1_comp_1 | lag_-1_comp_2`). -/
def trainingFeatureOrder (lags : Lags) (tgt : TimeSeries) (pc fc : Option TimeSeries) :
    List String :=
  (match lags.target with
   | some ls => ls.flatMap (fun l => tgt.comps.map (fun c => c ++ "_target_lag" ++ toString l))
   | none => [])
  ++ (match lags.past, pc with
      | some ls, some c =>
        if ls.isEmpty then []
        else ls.flatMap (fun l => c.comps.map (fun cc => cc ++ "_past_cov_lag" ++ toString l))
      | _, _ => [])
  ++ (match lags.future, fc with
      | some ls, some c =>
        if ls.isEmpty then []
        else ls.flatMap (fun l => c.comps.map (fun cc => cc ++ "_fut_cov_lag" ++ toString l))
      | _, _ => [])

/-- The specification of the design matrix, as the claim states it: column
labels in target/past/future lag-major component-minor order; that order equal
to the training-time feature order; one row per time step (of the contributing
series) at which every column has a value; and every cell equal to the
corresponding series value shifted by the column's lag. -/
def ShapXSpec (lags : Lags) (tgt : TimeSeries) (pc fc : Option TimeSeries)
    (X : DFrame) : Prop :=
  X.cols = expectedShapCols lags tgt pc fc ∧
  X.cols = trainingFeatureOrder lags tgt pc fc ∧
  (∀ t : ℤ, t ∈ X.index ↔
    ((∃ p ∈ lagPairs lags tgt pc fc, t ∈ p.1.timeIndex) ∧
     ∀ j < (shapDescriptors lags tgt pc fc).length,
       (shapRawVal lags tgt pc fc t j).isSome)) ∧
  (∀ (t : ℤ) (j : ℕ), X.val t j = shapRawVal lags tgt pc fc t j)

/-- The frame a `(series, variable, lag)` combination contributes. -/
def mkLagFrame (p : TimeSeries × LagVar × ℤ) : DFrame :=
  laggedFrame p.1 p.2.2 (lagSuffix p.2.1)

theorem map_getD_range {α β : Type} (l : List α) (d : α) (f : α → β) :
    l.map f = (List.range l.length).map (fun k => f (l.getD k d)) := by
  induction l with
  | nil => rfl
  | cons a as ih =>
    simp only [List.map_cons, List.length_cons, List.range_succ_eq_map, List.map_map,
      Function.comp_def, List.getD_cons_zero, List.getD_cons_succ]
    exact congrArg (f a :: ·) ih

theorem covFrames_ok (cov : Option TimeSeries) (lagsOpt : Option (List ℤ)) (v : LagVar)
    (pf : List DFrame) (hok : covFrames cov lagsOpt (lagSuffix v) = Except.ok pf) :
    pf = (match lagsOpt, cov with
          | some ls, some c => if ls.isEmpty then [] else ls.map (fun l => (c, v, l))
          | _, _ => ([] : List (TimeSeries × LagVar × ℤ))).map mkLagFrame := by
  cases lagsOpt with
  | none =>
    simp only [covFrames] at hok
    injection hok with h
    simp [← h]
  | some ls =>
    cases cov with
    | none =>
      simp only [covFrames] at hok
      by_cases he : ls.isEmpty
      · rw [if_pos he] at hok
        injection hok with h
        simp [← h, he]
      · rw [if_neg he] at hok
        cases hok
    | some c =>
      simp only [covFrames] at hok
      by_cases he : ls.isEmpty
      · rw [if_pos he] at hok
        injection hok with h
        simp [← h, he]
      · rw [if_neg he] at hok
        injection hok with h
        simp [← h, he, List.map_map, mkLagFrame]

theorem frames_of_ok (lags : Lags) (tgt : TimeSeries) (pc fc : Option TimeSeries)
    (fr : List DFrame) (hok : shapFrames lags tgt pc fc = Except.ok fr) :
    fr = (lagPairs lags tgt pc fc).map mkLagFrame := by
  unfold shapFrames at hok
  cases hp : covFrames pc lags.past "_past_cov_lag" with
  | error e => rw [hp] at hok; cases hok
  | ok pf =>
    rw [hp] at hok
    cases hf : covFrames fc lags.future "_fut_cov_lag" with
    | error e => rw [hf] at hok; cases hok
    | ok ffr =>
      rw [hf] at hok
      injection hok with h
      have h1 := covFrames_ok pc lags.past LagVar.pastCov pf hp
      have h2 := covFrames_ok fc lags.future LagVar.futCov ffr hf
      rw [← h, h1, h2]
      unfold lagPairs
      rw [List.map_append, List.map_append]
      congr 1
      · congr 1
        unfold targetFrames
        cases lags.target with
        | none => rfl
        | some ls => simp [List.map_map, mkLagFrame, lagSuffix]

theorem rawLookup_append_lt (A B : List (TimeSeries × LagVar × ℤ × ℕ)) (t : ℤ) (j : ℕ)
    (h : j < A.length) : rawLookup (A ++ B) t j = rawLookup A t j := by
  unfold rawLookup
  rw [List.getElem?_append, if_pos h]

theorem rawLookup_append_ge (A B : List (TimeSeries × LagVar × ℤ × ℕ)) (t : ℤ) (j : ℕ)
    (h : ¬ j < A.length) : rawLookup (A ++ B) t j = rawLookup B t (j - A.length) := by
  unfold rawLookup
  rw [List.getElem?_append, if_neg h]

theorem cols_concat_frames (ps : List (TimeSeries × LagVar × ℤ)) :
    ((ps.map mkLagFrame).map (fun d => d.cols)).flatten = (ps.flatMap pairDescs).map descName := by
  induction ps with
  | nil => rfl
  | cons p ps ih =>
    simp only [List.map_cons, List.flatten_cons, List.flatMap_cons, List.map_append, ih]
    congr 1
    obtain ⟨s, v, l⟩ := p
    simp only [mkLagFrame, laggedFrame, pairDescs, descName, List.map_map, Function.comp_def]
    exact map_getD_range s.comps "" (fun c => c ++ lagSuffix v ++ toString l)

theorem concatVal_frames (ps : List (TimeSeries × LagVar × ℤ)) (t : ℤ) (j : ℕ) :
    concatVal (ps.map mkLagFrame) t j = rawLookup (ps.flatMap pairDescs) t j := by
  induction ps generalizing j with
  | nil => rfl
  | cons p ps ih =>
    obtain ⟨s, v, l⟩ := p
    have hlen : (mkLagFrame (s, v, l)).cols.length = s.comps.length := by
      simp [mkLagFrame, laggedFrame]
    have hdlen : (pairDescs (s, v, l)).length = s.comps.length := by
      simp [pairDescs]
    simp only [List.map_cons, List.flatMap_cons, concatVal, hlen]
    by_cases hj : j < s.comps.length
    · rw [if_pos hj, rawLookup_append_lt _ _ _ _ (by rw [hdlen]; exact hj)]
      have hg : (pairDescs (s, v, l))[j]? = some (s, v, l, j) := by
        simp [pairDescs, List.getElem?_map, List.getElem?_range, hj]
      unfold rawLookup
      rw [hg]
      simp [mkLagFrame, laggedFrame, hj]
    · rw [if_neg hj, rawLookup_append_ge _ _ _ _ (by rw [hdlen]; exact hj)]
      rw [hdlen]
      exact ih (j - s.comps.length)

theorem mem_concat_index (ps : List (TimeSeries × LagVar × ℤ)) (t : ℤ) :
    t ∈ (concatCols (ps.map mkLagFrame)).index ↔ ∃ p ∈ ps, t ∈ p.1.timeIndex := by
  have hmap : ((ps.map mkLagFrame).map (fun d => d.index)) = ps.map (fun p => p.1.timeIndex) := by
    rw [List.map_map]; rfl
  show t ∈ sortedUnion ((ps.map mkLagFrame).map (fun d => d.index)) ↔ _
  rw [hmap, mem_sortedUnion]
  constructor
  · rintro ⟨I, hI, htI⟩
    rw [List.mem_map] at hI
    obtain ⟨p, hp, rfl⟩ := hI
    exact ⟨p, hp, htI⟩
  · rintro ⟨p, hp, htp⟩
    exact ⟨p.1.timeIndex, List.mem_map_of_mem _ hp, htp⟩

theorem pairDescs_names (s : TimeSeries) (v : LagVar) (l : ℤ) :
    (pairDescs (s, v, l)).map descName = s.comps.map (fun c => c ++ lagSuffix v ++ toString l) := by
  simp only [pairDescs, descName, List.map_map, Function.comp_def]
  exact (map_getD_range s.comps "" (fun c => c ++ lagSuffix v ++ toString l)).symm

theorem block_names (s : TimeSeries) (v : LagVar) (ls : List ℤ) :
    ((ls.map (fun l => (s, v, l))).flatMap pairDescs).map descName
      = ls.flatMap (fun l => s.comps.map (fun c => c ++ lagSuffix v ++ toString l)) := by
  rw [List.flatMap_map, List.map_flatMap]
  exact List.flatMap_congr (fun l _ => pairDescs_names s v l)

theorem expectedShapCols_eq_training (lags : Lags) (tgt : TimeSeries)
    (pc fc : Option TimeSeries) :
    expectedShapCols lags tgt pc fc = trainingFeatureOrder lags tgt pc fc := by
  unfold expectedShapCols shapDescriptors lagPairs trainingFeatureOrder
  rw [List.flatMap_append, List.flatMap_append, List.map_append, List.map_append]
  congr 1
  · congr 1
    · cases lags.target with
      | none => rfl
      | some ls => simpa [lagSuffix] using block_names tgt LagVar.target ls
    · cases lags.past with
      | none => cases pc <;> rfl
      | some ls =>
        cases pc with
        | none => rfl
        | some c =>
          by_cases he : ls.isEmpty
          · simp [he]
          · have hb := block_names c LagVar.pastCov ls
            simp only [lagSuffix] at hb
            simp [he, hb]
  · cases lags.future with
    | none => cases fc <;> rfl
    | some ls =>
      cases fc with
      | none => rfl
      | some c =>
        by_cases he : ls.isEmpty
        · simp [he]
        · have hb := block_names c LagVar.futCov ls
          simp only [lagSuffix] at hb
          simp [he, hb]

/-- Claim C6: every design matrix built by `_create_RegressionModel_shap_X`
has one column per (variable, lag, component) combination — target-lag columns
first, then past-covariate-lag columns, then future-covariate-lag columns, in
the configured lag order with one column per component per lag — each column
being the corresponding series shifted by that lag; it keeps one row per time
step at which every column has a value (rows with values missing after
shifting are dropped); and the column ordering equals the training-time
feature order of the underlying model. -/
theorem create_shap_X_spec (lags : Lags) (tgt : TimeSeries) (pc fc : Option TimeSeries)
    (X : DFrame) (hok : create_RegressionModel_shap_X lags tgt pc fc = Except.ok X) :
    ShapXSpec lags tgt pc fc X := by
  unfold create_RegressionModel_shap_X at hok
  split at hok
  · cases hok
  · next fr hfr =>
    split at hok
    · cases hok
    · next hne =>
      injection hok with h
      have hfr2 : fr = (lagPairs lags tgt pc fc).map mkLagFrame := frames_of_ok _ _ _ _ _ hfr
      subst h
      subst hfr2
      have hval : ∀ (t : ℤ) (j : ℕ),
          (concatCols ((lagPairs lags tgt pc fc).map mkLagFrame)).val t j
            = shapRawVal lags tgt pc fc t j := by
        intro t j
        show concatVal ((lagPairs lags tgt pc fc).map mkLagFrame) t j = _
        rw [concatVal_frames]
        rfl
      have hcols : (dropna (concatCols ((lagPairs lags tgt pc fc).map mkLagFrame))).cols
          = expectedShapCols lags tgt pc fc := by
        show (((lagPairs lags tgt pc fc).map mkLagFrame).map (fun d => d.cols)).flatten = _
        rw [cols_concat_frames]
        rfl
      have hcl : (concatCols ((lagPairs lags tgt pc fc).map mkLagFrame)).cols.length
          = (shapDescriptors lags tgt pc fc).length := by
        have := congrArg List.length hcols
        simpa [expectedShapCols] using this
      refine ⟨hcols, ?_, ?_, ?_⟩
      · rw [hcols]; exact expectedShapCols_eq_training lags tgt pc fc
      · intro t
        rw [show (dropna (concatCols ((lagPairs lags tgt pc fc).map mkLagFrame))).index =
            (concatCols ((lagPairs lags tgt pc fc).map mkLagFrame)).index.filter
              (fun t2 => (List.range (concatCols ((lagPairs lags tgt pc fc).map mkLagFrame)).cols.length).all
                (fun j => ((concatCols ((lagPairs lags tgt pc fc).map mkLagFrame)).val t2 j).isSome)) from rfl]
        rw [List.mem_filter, mem_concat_index, List.all_eq_true]
        constructor
        · rintro ⟨hmem, hj⟩
          refine ⟨hmem, fun j hjlt => ?_⟩
          have hjr : j ∈ List.range (concatCols ((lagPairs lags tgt pc fc).map mkLagFrame)).cols.length :=
            List.mem_range.mpr (by rw [hcl]; exact hjlt)
          have := hj j hjr
          rwa [hval t j] at this
        · rintro ⟨hmem, hj⟩
          refine ⟨hmem, fun j hjr => ?_⟩
          have hjlt : j < (shapDescriptors lags tgt pc fc).length := by
            rw [← hcl]; exact List.mem_range.mp hjr
          rw [hval t j]
          exact hj j hjlt
      · intro t j
        exact hval t j

def w6lags : Lags := ⟨some [-2, -1], some [-1], some [0]⟩
def w6tgt : TimeSeries := ⟨0, ["y1", "y2"], [[1, 2], [3, 4], [5, 6], [7, 8]]⟩
def w6pc : TimeSeries := ⟨0, ["p"], [[10], [11], [12], [13]]⟩
def w6fc : TimeSeries := ⟨0, ["f"], [[20], [21], [22], [23]]⟩

def w6X : DFrame :=
  ((create_RegressionModel_shap_X w6lags w6tgt (some w6pc) (some w6fc)).toOption).getD emptyDF

/-- Witness for claim C6 at a concrete model configuration (two target
components with lags [-2, -1], one past covariate with lag [-1], one future
covariate with lag [0]). -/
theorem create_shap_X_spec_witness :
    ShapXSpec w6lags w6tgt (some w6pc) (some w6fc) w6X :=
  create_shap_X_spec w6lags w6tgt (some w6pc) (some w6fc) w6X (by rfl)

/-- The cache-coherence invariant maintained by `shap_values`: whenever the
foreground cache is populated, the cached matrix is the one built from the
cached restricted inputs, and — on the native multi-output path — the cached
engine output is the engine's output on that matrix. -/
def StInv (st : ShapState) : Prop :=
  ∀ s p f, st.cacheFgSeries = some s → st.cacheFgPast = some p → st.cacheFgFut = some f →
    ∃ X, create_RegressionModel_shap_X st.cfg.lags s (some p) (some f) = Except.ok X ∧
      st.cacheFgX = some X ∧
      ∀ en, st.explainers = Explainers.single en → (1 < st.cfg.targetDim ∨ 1 < st.cfg.ocl) →
        st.cacheExpl = some (st.cfg.fullAttr3 en X)

theorem stInv_resetCaches (st : ShapState) : StInv (resetCaches st) := by
  intro s p f hs _ _
  simp [resetCaches] at hs

/-- `shap_values_from_X` touches no state field other than `cacheExpl`, and
changes `cacheExpl` only on the native multi-output path with a changed
foreground, where it stores the engine output on `X`. -/
theorem fromX_state_facts (st : ShapState) (X : DFrame) (h : ℕ) (t : String)
    (pr : Explanation × ShapState) (hok : shapValuesFromX st X h t = Except.ok pr) :
    pr.2.cfg = st.cfg ∧ pr.2.targetDict = st.targetDict ∧ pr.2.explainers = st.explainers ∧
    pr.2.cacheFgSeries = st.cacheFgSeries ∧ pr.2.cacheFgPast = st.cacheFgPast ∧
    pr.2.cacheFgFut = st.cacheFgFut ∧ pr.2.cacheFgX = st.cacheFgX ∧
    pr.2.foregroundChanged = st.foregroundChanged ∧
    (st.foregroundChanged = false → pr.2.cacheExpl = st.cacheExpl) ∧
    (∀ en, st.foregroundChanged = true → st.explainers = Explainers.single en →
      pr.2.cacheExpl = some (st.cfg.fullAttr3 en X) ∨ pr.2.cacheExpl = st.cacheExpl) ∧
    (∀ en, st.foregroundChanged = true → st.explainers = Explainers.single en →
      (1 < st.cfg.targetDim ∨ 1 < st.cfg.ocl) →
      pr.2.cacheExpl = some (st.cfg.fullAttr3 en X)) := by
  unfold shapValuesFromX at hok
  split at hok
  · next hcond =>
    split at hok
    · -- dict path
      next engines hex =>
      split at hok
      · cases hok
      · split at hok
        · cases hok
        · split at hok
          · cases hok
          · split at hok
            · cases hok
            · injection hok with h2
              subst h2
              refine ⟨rfl, rfl, rfl, rfl, rfl, rfl, rfl, rfl, fun _ => rfl, ?_, ?_⟩
              · intro en _ hsing
                rw [hex] at hsing
                cases hsing
              · intro en _ hsing
                rw [hex] at hsing
                cases hsing
    · -- native multi-output path
      next en0 hex =>
      split at hok
      · -- foreground changed: the engine output on X is cached
        next hch =>
        split at hok
        · cases hok
        · injection hok with h2
          subst h2
          refine ⟨rfl, rfl, rfl, rfl, rfl, rfl, rfl, rfl, ?_, ?_, ?_⟩
          · intro hf
            rw [hf] at hch
            cases hch
          · intro en _ hsing
            rw [hex] at hsing
            injection hsing with hen
            subst hen
            exact Or.inl rfl
          · intro en _ hsing _
            rw [hex] at hsing
            injection hsing with hen
            subst hen
            rfl
      · -- foreground unchanged: the cached engine output is reused
        next hch =>
        split at hok
        · cases hok
        · injection hok with h2
          subst h2
          refine ⟨rfl, rfl, rfl, rfl, rfl, rfl, rfl, rfl, fun _ => rfl, ?_, ?_⟩
          · intro en hf _
            exact absurd hf hch
          · intro en hf _ _
            exact absurd hf hch
  · next hcond =>
    split at hok
    · injection hok with h2
      subst h2
      exact ⟨rfl, rfl, rfl, rfl, rfl, rfl, rfl, rfl, fun _ => rfl,
        fun _ _ _ => Or.inr rfl, fun _ _ _ hc => absurd hc hcond⟩
    · cases hok

/-- A cache hit: when the restricted inputs equal the cached ones, the matrix
is not rebuilt; the dispatch runs on the cached matrix with
`foreground_changed = False`. -/
theorem afterCheck_hit (st : ShapState) (rs rp rf : TimeSeries) (h : ℕ) (t : String)
    (w : List String) (e : Explanation) (w2 : List String) (st2 : ShapState)
    (hs : st.cacheFgSeries = some rs) (hp : st.cacheFgPast = some rp)
    (hf : st.cacheFgFut = some rf)
    (hok : shapValuesAfterCheck st rs rp rf h t w = Except.ok (e, w2, st2)) :
    shapValuesFromX { st with foregroundChanged := false }
      (st.cacheFgX.getD emptyDF) h t = Except.ok (e, st2) ∧ w2 = w := by
  unfold shapValuesAfterCheck at hok
  rw [if_neg (by simp [hs, hp, hf])] at hok
  simp only [] at hok
  split at hok
  · cases hok
  · next est2 heq =>
    injection hok with h3
    rw [Prod.mk.injEq] at h3
    obtain ⟨he, h4⟩ := h3
    rw [Prod.mk.injEq] at h4
    obtain ⟨hw, hst⟩ := h4
    subst he hw hst
    exact ⟨heq, rfl⟩

/-- A cache miss: the matrix is rebuilt from the restricted inputs, cached, and
the dispatch runs with `foreground_changed = True`. -/
theorem afterCheck_miss (st : ShapState) (rs rp rf : TimeSeries) (h : ℕ) (t : String)
    (w : List String) (e : Explanation) (w2 : List String) (st2 : ShapState)
    (hcond : st.cacheFgSeries ≠ some rs ∨ st.cacheFgPast ≠ some rp ∨ st.cacheFgFut ≠ some rf)
    (hok : shapValuesAfterCheck st rs rp rf h t w = Except.ok (e, w2, st2)) :
    ∃ X, create_RegressionModel_shap_X st.cfg.lags rs (some rp) (some rf) = Except.ok X ∧
      shapValuesFromX
        { st with
          cacheFgSeries := some rs
          cacheFgPast := some rp
          cacheFgFut := some rf
          foregroundChanged := true
          cacheFgX := some X } X h t = Except.ok (e, st2) ∧ w2 = w := by
  unfold shapValuesAfterCheck at hok
  rw [if_pos hcond] at hok
  split at hok

  · cases hok
  · next X hX =>
    simp only [] at hok
    split at hok
    · cases hok
    · next est2 heq =>
      injection hok with h3
      rw [Prod.mk.injEq] at h3
      obtain ⟨he, h4⟩ := h3
      rw [Prod.mk.injEq] at h4
      obtain ⟨hw, hst⟩ := h4
      subst he hw hst
      exact ⟨X, hX, heq, rfl⟩

/-- After a successful `shap_values` call the model data is untouched, the
foreground cache holds the restricted inputs, and the cache-coherence
invariant is preserved. -/
theorem shap_values_ok_facts (st : ShapState) (fs fp ff : TimeSeries) (h : ℕ) (t : String)
    (e : Explanation) (w : List String) (st2 : ShapState)
    (hok : RegressionShapExplainers.shap_values st fs (some fp) (some ff) h t = Except.ok (e, w, st2)) :
    st2.cfg = st.cfg ∧ st2.targetDict = st.targetDict ∧ st2.explainers = st.explainers ∧
    st2.cacheFgSeries = some (retain_period_common_to_all fs fp ff).1 ∧
    st2.cacheFgPast = some (retain_period_common_to_all fs fp ff).2.1 ∧
    st2.cacheFgFut = some (retain_period_common_to_all fs fp ff).2.2 ∧
    (StInv st → StInv st2) := by
  unfold RegressionShapExplainers.shap_values at hok
  cases hch : chainedTimeIndexAllEqual fs (some fp) (some ff) with
  | error err => rw [hch] at hok; cases hok
  | ok allEq =>
    rw [hch] at hok
    replace hok : shapValuesAfterCheck st (retain_period_common_to_all fs fp ff).1
        (retain_period_common_to_all fs fp ff).2.1 (retain_period_common_to_all fs fp ff).2.2
        h t (if allEq then [] else [indexWarning]) = Except.ok (e, w, st2) := hok
    by_cases hcond : st.cacheFgSeries ≠ some (retain_period_common_to_all fs fp ff).1 ∨
        st.cacheFgPast ≠ some (retain_period_common_to_all fs fp ff).2.1 ∨
        st.cacheFgFut ≠ some (retain_period_common_to_all fs fp ff).2.2
    · obtain ⟨X, hX, hfx, _⟩ :=
        afterCheck_miss st _ _ _ h t _ e w st2 hcond hok
      obtain ⟨hcfg, htd, hex, hcs, hcp, hcf, hcx, _, _, _, hset⟩ :=
        fromX_state_facts _ X h t (e, st2) hfx
      refine ⟨hcfg, htd, hex, hcs, hcp, hcf, fun _ => ?_⟩
      intro s p f hs2 hp2 hf2
      have hcs2 : st2.cacheFgSeries = some (retain_period_common_to_all fs fp ff).1 := hcs
      have hcp2 : st2.cacheFgPast = some (retain_period_common_to_all fs fp ff).2.1 := hcp
      have hcf2 : st2.cacheFgFut = some (retain_period_common_to_all fs fp ff).2.2 := hcf
      have hseq : s = (retain_period_common_to_all fs fp ff).1 :=
        Option.some.inj (hs2.symm.trans hcs2)
      have hpeq : p = (retain_period_common_to_all fs fp ff).2.1 :=
        Option.some.inj (hp2.symm.trans hcp2)
      have hfeq : f = (retain_period_common_to_all fs fp ff).2.2 :=
        Option.some.inj (hf2.symm.trans hcf2)
      subst hseq hpeq hfeq
      refine ⟨X, ?_, hcx, ?_⟩
      · rw [hcfg]; exact hX
      · intro en hsing hcond2
        have hsing2 : st.explainers = Explainers.single en := by rw [← hex]; exact hsing
        have := hset en rfl hsing2 (by rw [← hcfg]; exact hcond2)
        rw [this, hcfg]
    · push_neg at hcond
      obtain ⟨hs, hp, hf⟩ := hcond
      obtain ⟨hfx, _⟩ := afterCheck_hit st _ _ _ h t _ e w st2 hs hp hf hok
      obtain ⟨hcfg, htd, hex, hcs, hcp, hcf, hcx, hfc, hunch, _, _⟩ :=
        fromX_state_facts _ _ h t (e, st2) hfx
      refine ⟨hcfg, htd, hex, by rw [hcs]; exact hs, by rw [hcp]; exact hp,
        by rw [hcf]; exact hf, fun hinv => ?_⟩
      intro s p f hs2 hp2 hf2
      obtain ⟨X, hX, hcx0, hcoh⟩ := hinv s p f (by rw [← hcs]; exact hs2)
        (by rw [← hcp]; exact hp2) (by rw [← hcf]; exact hf2)
      refine ⟨X, by rw [hcfg]; exact hX, by rw [hcx]; exact hcx0, ?_⟩
      intro en hsing hcond2
      have hsing2 : st.explainers = Explainers.single en := by rw [← hex]; exact hsing
      have hunch2 := hunch rfl
      rw [hunch2, hcfg]
      exact hcoh en hsing2 (by rw [← hcfg]; exact hcond2)

/-- The explanation computed by `shap_values_from_X` is the same whether the
foreground just changed (so the engine output is recomputed) or the cached
engine output for the same matrix is reused; the per-output and single paths
depend only on the model data and `X`. -/
theorem fromX_result_eq (stA stB : ShapState) (X : DFrame) (h : ℕ) (t : String)
    (hcfg : stB.cfg = stA.cfg) (htd : stB.targetDict = stA.targetDict)
    (hex : stB.explainers = stA.explainers)
    (hA : stA.foregroundChanged = false) (hB : stB.foregroundChanged = true)
    (hcoh : ∀ en, stA.explainers = Explainers.single en →
      (1 < stA.cfg.targetDim ∨ 1 < stA.cfg.ocl) →
      stA.cacheExpl = some (stA.cfg.fullAttr3 en X)) :
    (shapValuesFromX stB X h t).map (fun r => r.1) =
    (shapValuesFromX stA X h t).map (fun r => r.1) := by
  unfold shapValuesFromX
  rw [hcfg, htd, hex, hA, hB]
  by_cases hcond : 1 < stA.cfg.targetDim ∨ 1 < stA.cfg.ocl
  · rw [if_pos hcond, if_pos hcond]
    cases hexa : stA.explainers with
    | dict engines =>
      simp only []
      by_cases hmo : stA.cfg.multioutput = true
      · rw [if_pos hmo, if_pos hmo]
      · rw [if_neg hmo, if_neg hmo]
        cases hrow : engines[h]? with
        | none => simp [hrow]
        | some row =>
          cases hti : targetDictLookup stA.targetDict t with
          | error err => simp [hrow, hti]
          | ok ti =>
            cases heng : row[ti]? with
            | none => simp [hrow, hti, heng]
            | some eng => simp [hrow, hti, heng, Except.map]
    | single en =>
      simp only []
      have hc := hcoh en hexa hcond
      rw [hc]
      cases hti : targetDictLookup stA.targetDict t with
      | error err => simp [hti]
      | ok ti => simp [hti, Except.map]
  · rw [if_neg hcond, if_neg hcond]
    cases hexa : stA.explainers with
    | dict engines => rfl
    | single en => rfl

/-- A freshly constructed explainer (empty foreground cache) produces on the
cache-hit inputs exactly the explanation the cache-hit call returned. -/
theorem afterCheck_fresh (st1 : ShapState) (rs rp rf : TimeSeries) (h : ℕ) (t : String)
    (w : List String) (e2 : Explanation) (st2 : ShapState) (X0 : DFrame)
    (hX0 : create_RegressionModel_shap_X st1.cfg.lags rs (some rp) (some rf) = Except.ok X0)
    (hcx0 : st1.cacheFgX = some X0)
    (hcoh0 : ∀ en, st1.explainers = Explainers.single en →
      (1 < st1.cfg.targetDim ∨ 1 < st1.cfg.ocl) →
      st1.cacheExpl = some (st1.cfg.fullAttr3 en X0))
    (hhit : shapValuesFromX { st1 with foregroundChanged := false }
      (st1.cacheFgX.getD emptyDF) h t = Except.ok (e2, st2)) :
    (shapValuesAfterCheck (resetCaches st1) rs rp rf h t w).map (fun r => r.1) =
      Except.ok e2 := by
  unfold shapValuesAfterCheck
  rw [if_pos (Or.inl (by simp [resetCaches]))]
  have hX0b : create_RegressionModel_shap_X (resetCaches st1).cfg.lags rs (some rp) (some rf) =
      Except.ok X0 := hX0
  rw [hX0b]
  simp only [Option.getD_some]
  have harg : st1.cacheFgX.getD emptyDF = X0 := by rw [hcx0]; rfl
  have hhit2 : shapValuesFromX { st1 with foregroundChanged := false } X0 h t =
      Except.ok (e2, st2) := by
    rw [harg] at hhit
    exact hhit
  have hres := fromX_result_eq { st1 with foregroundChanged := false }
      { resetCaches st1 with
        cacheFgSeries := some rs
        cacheFgPast := some rp
        cacheFgFut := some rf
        foregroundChanged := true
        cacheFgX := some X0 } X0 h t rfl rfl rfl rfl rfl hcoh0
  rw [hhit2] at hres
  simp only [Except.map] at hres
  split
  · next err hfb =>
    rw [hfb] at hres
    simp [Except.map] at hres
  · next est2 hfb =>
    rw [hfb] at hres
    simp only [Except.map] at hres
    injection hres with h4
    simp [Except.map, h4]

/-- Claim C5: when `shap_values` is called with foreground inputs equal — after
restriction to their common period — to those of the immediately preceding
call on the same explainer, the lagged foreground matrix is not rebuilt (the
cache-miss flag stays down and the cached matrix is kept), and the returned
explanation equals what a fresh computation (same explainer data, empty
foreground cache) returns on the same inputs. -/
theorem shap_values_cache_hit (st st1 st2 : ShapState)
    (fs1 fp1 ff1 fs2 fp2 ff2 : TimeSeries) (h1 h2 : ℕ) (t1 t2 : String)
    (e1 e2 : Explanation) (w1 w2 : List String)
    (hinv : StInv st)
    (hc1 : RegressionShapExplainers.shap_values st fs1 (some fp1) (some ff1) h1 t1 =
      Except.ok (e1, w1, st1))
    (hc2 : RegressionShapExplainers.shap_values st1 fs2 (some fp2) (some ff2) h2 t2 =
      Except.ok (e2, w2, st2))
    (heq : retain_period_common_to_all fs2 fp2 ff2 = retain_period_common_to_all fs1 fp1 ff1) :
    st2.foregroundChanged = false ∧ st2.cacheFgX = st1.cacheFgX ∧
    (RegressionShapExplainers.shap_values (resetCaches st1) fs2 (some fp2) (some ff2) h2 t2).map
      (fun r => r.1) = Except.ok e2 := by
  obtain ⟨hcfg1, htd1, hex1, hcs1, hcp1, hcf1, hinvf⟩ :=
    shap_values_ok_facts st fs1 fp1 ff1 h1 t1 e1 w1 st1 hc1
  have hinv1 : StInv st1 := hinvf hinv
  unfold RegressionShapExplainers.shap_values at hc2 ⊢
  cases hch2 : chainedTimeIndexAllEqual fs2 (some fp2) (some ff2) with
  | error err => rw [hch2] at hc2; cases hc2
  | ok allEq2 =>
    rw [hch2] at hc2
    replace hc2 : shapValuesAfterCheck st1 (retain_period_common_to_all fs2 fp2 ff2).1
        (retain_period_common_to_all fs2 fp2 ff2).2.1
        (retain_period_common_to_all fs2 fp2 ff2).2.2
        h2 t2 (if allEq2 then [] else [indexWarning]) = Except.ok (e2, w2, st2) := hc2
    rw [heq] at hc2
    obtain ⟨hfx2, hw2⟩ := afterCheck_hit st1 _ _ _ h2 t2 _ e2 w2 st2 hcs1 hcp1 hcf1 hc2
    obtain ⟨_, _, _, _, _, _, hcx2, hfc2, _, _, _⟩ :=
      fromX_state_facts _ _ h2 t2 (e2, st2) hfx2
    obtain ⟨X0, hX0, hcx0, hcoh0⟩ := hinv1 _ _ _ hcs1 hcp1 hcf1
    refine ⟨hfc2, hcx2, ?_⟩
    show (shapValuesAfterCheck (resetCaches st1) (retain_period_common_to_all fs2 fp2 ff2).1
        (retain_period_common_to_all fs2 fp2 ff2).2.1
        (retain_period_common_to_all fs2 fp2 ff2).2.2
        h2 t2 (if allEq2 then [] else [indexWarning])).map (fun r => r.1) = Except.ok e2
    rw [heq]
    exact afterCheck_fresh st1 _ _ _ h2 t2 _ e2 st2 X0 hX0 hcx0 hcoh0 hfx2

instance : Inhabited Explanation := ⟨⟨[], [], []⟩⟩

def w5r1 : Except PyErr (Explanation × List String × ShapState) :=
  RegressionShapExplainers.shap_values c3st c3fs (some c3fp) (some c3ff) 0 "a"

def w5e1 : Explanation := (w5r1.toOption.map (fun r => r.1)).getD default
def w5w1 : List String := (w5r1.toOption.map (fun r => r.2.1)).getD []
def w5st1 : ShapState := (w5r1.toOption.map (fun r => r.2.2)).getD c3st

def w5r2 : Except PyErr (Explanation × List String × ShapState) :=
  RegressionShapExplainers.shap_values w5st1 c3fs (some c3fp) (some c3ff) 0 "a"

def w5e2 : Explanation := (w5r2.toOption.map (fun r => r.1)).getD default
def w5w2 : List String := (w5r2.toOption.map (fun r => r.2.1)).getD []
def w5st2 : ShapState := (w5r2.toOption.map (fun r => r.2.2)).getD c3st

/-- Witness for claim C5: two consecutive `shap_values` calls on the same
concrete foreground inputs; the theorem's hypotheses are discharged by
evaluation. -/
theorem shap_values_cache_hit_witness :
    w5st2.foregroundChanged = false ∧ w5st2.cacheFgX = w5st1.cacheFgX ∧
    (RegressionShapExplainers.shap_values (resetCaches w5st1) c3fs (some c3fp)
        (some c3ff) 0 "a").map (fun r => r.1) = Except.ok w5e2 :=
  shap_values_cache_hit c3st w5st1 w5st2 c3fs c3fp c3ff c3fs c3fp c3ff 0 0 "a" "a"
    w5e1 w5e2 w5w1 w5w2
    (by intro s p f hs hp hf; simp [c3st, plainState] at hs)
    (by rfl) (by rfl) rfl

/-- Witness for claim C4 at a concrete input. -/
theorem shap_values_none_covariates_raises_witness :
    RegressionShapExplainers.shap_values c3st c3fs none (some c3ff) 0 "a" =
      Except.error PyErr.attributeError :=
  shap_values_none_covariates_raises c3st c3fs (some c3ff) 0 "a"

/-- Witness for claim C9 at a concrete fitted model and horizon. -/
theorem save_load_roundtrip_pred_witness :
    (loadModel (FittedLinModel.save ⟨[1/2], 3, [1, 2]⟩)).map (fun m2 => m2.predict 2) =
      some ((⟨[1/2], 3, [1, 2]⟩ : FittedLinModel).predict 2) :=
  save_load_roundtrip_pred ⟨[1/2], 3, [1, 2]⟩ 2
